import Mathlib

/-!
Verification of the text-transformation core of `src/app.py` (simFDS web UI):
the Label Formatter (`_subscript_label`), the Dependency Extractor
(`build_dependency_dot`) and the State-Graph Canonicalizer
(`_reorder_statespace_dot`).

Texts are modelled as `List Char`.  Python's `str.splitlines`, `str.strip`,
`"\n".join` and the two regular expressions of the source are embedded as
executable functions; the regular expressions contain no genuine
backtracking (every quantified class is followed by a character outside the
class), so each is embedded as the deterministic scanner it denotes.
The character classes `\d` and `\w` (hence `\b`) are Unicode-aware in the
source (`re` on `str` without `re.ASCII`) and are embedded by explicit range
tables of the code points Python matches.
-/

/-- Python `str.isspace` / regex `\s`: the whitespace characters. -/
def isPySpace (c : Char) : Bool :=
  c == ' ' || c == '\t' || c == '\n' || c == '\x0b' || c == '\x0c' || c == '\r' ||
  c == '\x1c' || c == '\x1d' || c == '\x1e' || c == '\x1f' || c == '\x85' || c == '\xa0' ||
  c == ' ' || decide (' ' ≤ c ∧ c ≤ ' ') || c == ' ' || c == ' ' ||
  c == ' ' || c == ' ' || c == '　'

/-- The line terminators recognised by Python `str.splitlines`. -/
def isLineTerm (c : Char) : Bool :=
  c == '\n' || c == '\r' || c == '\x0b' || c == '\x0c' ||
  c == '\x1c' || c == '\x1d' || c == '\x1e' || c == '\x85' || c == ' ' || c == ' '

/-- Worker for `splitlines`.  `skipNL` records that the previous character was
a `\r` terminator, so that an immediately following `\n` is part of the same
`\r\n` terminator.  `acc` is the current (unterminated) line. -/
def splitlinesGo (skipNL : Bool) (acc : List Char) : List Char → List (List Char)
  | [] => if acc = [] then [] else [acc]
  | c :: cs =>
    if skipNL = true ∧ c = '\n' then splitlinesGo false acc cs
    else if isLineTerm c then acc :: splitlinesGo (decide (c = '\r')) [] cs
    else splitlinesGo false (acc ++ [c]) cs

/-- Python `str.splitlines`: split at the line terminators, `\r\n` counting as
one terminator, a trailing terminator producing no final empty line. -/
def splitlines (s : List Char) : List (List Char) :=
  splitlinesGo false [] s

/-- Python `"\n".join`. -/
def joinNL : List (List Char) → List Char
  | [] => []
  | [l] => l
  | l :: ls => l ++ '\n' :: joinNL ls

/-- Python `str.strip`: drop whitespace at both ends. -/
def stripL (l : List Char) : List Char :=
  ((l.dropWhile isPySpace).reverse.dropWhile isPySpace).reverse

/-- The characters of a string literal, for concrete test texts. -/
def str (s : String) : List Char := s.data

theorem splitlinesGo_nil (b : Bool) (acc : List Char) :
    splitlinesGo b acc [] = if acc = [] then [] else [acc] := rfl

theorem splitlinesGo_cons (b : Bool) (acc : List Char) (c : Char) (cs : List Char) :
    splitlinesGo b acc (c :: cs) =
      if b = true ∧ c = '\n' then splitlinesGo false acc cs
      else if isLineTerm c then acc :: splitlinesGo (decide (c = '\r')) [] cs
      else splitlinesGo false (acc ++ [c]) cs := rfl

theorem joinNL_cons_cons (l l' : List Char) (ls : List (List Char)) :
    joinNL (l :: l' :: ls) = l ++ '\n' :: joinNL (l' :: ls) := rfl

/-- Consuming a terminator-free chunk only extends the accumulator. -/
theorem splitlinesGo_chunk (l : List Char) :
    ∀ (acc cs : List Char), (∀ c ∈ l, isLineTerm c = false) →
      splitlinesGo false acc (l ++ cs) = splitlinesGo false (acc ++ l) cs := by
  induction l with
  | nil => intro acc cs _; simp
  | cons c l ih =>
    intro acc cs h
    have hc : isLineTerm c = false := h c (by simp)
    rw [List.cons_append, splitlinesGo_cons]
    have : ¬(false = true ∧ c = '\n') := by simp
    rw [if_neg this, if_neg (by simp [hc])]
    rw [ih (acc ++ [c]) cs (fun d hd => h d (by simp [hd]))]
    simp

theorem splitlinesGo_newline (acc cs : List Char) :
    splitlinesGo false acc ('\n' :: cs) = acc :: splitlinesGo false [] cs := by
  rw [splitlinesGo_cons, if_neg (by simp), if_pos (by decide),
    show decide ('\n' = '\r') = false from by decide]

/-- Every line produced by `splitlinesGo` is terminator-free. -/
theorem splitlinesGo_noTerm :
    ∀ (s : List Char) (b : Bool) (acc : List Char),
      (∀ c ∈ acc, isLineTerm c = false) →
      ∀ l ∈ splitlinesGo b acc s, ∀ c ∈ l, isLineTerm c = false := by
  intro s
  induction s with
  | nil =>
    intro b acc hacc l hl
    rw [splitlinesGo_nil] at hl
    by_cases h : acc = [] <;> simp [h] at hl
    subst hl; exact hacc
  | cons c cs ih =>
    intro b acc hacc l hl
    rw [splitlinesGo_cons] at hl
    by_cases h1 : b = true ∧ c = '\n'
    · rw [if_pos h1] at hl; exact ih false acc hacc l hl
    · rw [if_neg h1] at hl
      by_cases h2 : isLineTerm c
      · rw [if_pos h2] at hl
        rcases List.mem_cons.1 hl with h | h
        · subst h; exact hacc
        · exact ih _ [] (by simp) l h
      · rw [if_neg h2] at hl
        refine ih false (acc ++ [c]) ?_ l hl
        intro d hd
        rcases List.mem_append.1 hd with h | h
        · exact hacc d h
        · simp at h; subst h; simpa using h2

/-- Every line produced by `splitlines` is terminator-free. -/
theorem splitlines_noTerm (s : List Char) :
    ∀ l ∈ splitlines s, ∀ c ∈ l, isLineTerm c = false :=
  splitlinesGo_noTerm s false [] (by simp)

/-- Round trip of `join` and `splitlines` on terminator-free lines: exact when
the last line is nonempty, otherwise the single trailing empty line is lost. -/
theorem splitlines_joinNL :
    ∀ (L : List (List Char)), (∀ l ∈ L, ∀ c ∈ l, isLineTerm c = false) →
      splitlines (joinNL L) = if L.getLast? = some [] then L.dropLast else L := by
  intro L
  induction L with
  | nil => intro _; simp [joinNL, splitlines, splitlinesGo]
  | cons l L ih =>
    intro h
    match L with
    | [] =>
      have hl : ∀ c ∈ l, isLineTerm c = false := h l (by simp)
      show splitlines (joinNL [l]) = _
      have : joinNL [l] = l := rfl
      rw [this]
      unfold splitlines
      have := splitlinesGo_chunk l [] [] hl
      simp at this
      rw [this, splitlinesGo_nil]
      by_cases he : l = [] <;> simp [he]
    | l' :: L' =>
      have hl : ∀ c ∈ l, isLineTerm c = false := h l (by simp)
      rw [joinNL_cons_cons]
      unfold splitlines
      rw [show (l ++ '\n' :: joinNL (l' :: L')) = (l ++ ('\n' :: joinNL (l' :: L'))) from rfl]
      rw [splitlinesGo_chunk l ([]) ('\n' :: joinNL (l' :: L')) hl]
      simp only [List.nil_append]
      rw [splitlinesGo_newline]
      have ihh : splitlines (joinNL (l' :: L')) =
          if (l' :: L').getLast? = some [] then (l' :: L').dropLast else (l' :: L') :=
        ih (fun a ha => h a (List.mem_cons_of_mem l ha))
      unfold splitlines at ihh
      rw [ihh]
      have hlast : (l :: l' :: L').getLast? = (l' :: L').getLast? := by
        simp [List.getLast?_cons_cons]
      by_cases hc : (l' :: L').getLast? = some ([] : List Char)
      · rw [if_pos hc, if_pos (hlast.trans hc)]
        simp
      · rw [if_neg hc, if_neg (fun h => hc (hlast.symm.trans h))]


/-!
## The Unicode character classes of `re`

Python compiles `assign_re`, `var_re` and the `fullmatch` pattern of
`_subscript_label` on `str` without `re.ASCII`, so `\d` is the full Unicode
decimal-digit category Nd and `\w` (hence `\b`) the Unicode word characters,
`str.isalnum` plus the underscore.  Both classes agree with their ASCII parts
below 0x80; the code points at or above 0x80 are tabulated as ranges.
-/

/-- Inclusive ranges of the code points at least 0x80 of Unicode category Nd
(Unicode 14.0): with the ASCII digits these are exactly the characters Python
regex `\d` matches. -/
def ndRanges : List (Nat × Nat) :=
  [(0x660, 0x669), (0x6f0, 0x6f9), (0x7c0, 0x7c9), (0x966, 0x96f), (0x9e6, 0x9ef),
   (0xa66, 0xa6f), (0xae6, 0xaef), (0xb66, 0xb6f), (0xbe6, 0xbef), (0xc66, 0xc6f),
   (0xce6, 0xcef), (0xd66, 0xd6f), (0xde6, 0xdef), (0xe50, 0xe59), (0xed0, 0xed9),
   (0xf20, 0xf29), (0x1040, 0x1049), (0x1090, 0x1099), (0x17e0, 0x17e9), (0x1810, 0x1819),
   (0x1946, 0x194f), (0x19d0, 0x19d9), (0x1a80, 0x1a89), (0x1a90, 0x1a99), (0x1b50, 0x1b59),
   (0x1bb0, 0x1bb9), (0x1c40, 0x1c49), (0x1c50, 0x1c59), (0xa620, 0xa629), (0xa8d0, 0xa8d9),
   (0xa900, 0xa909), (0xa9d0, 0xa9d9), (0xa9f0, 0xa9f9), (0xaa50, 0xaa59), (0xabf0, 0xabf9),
   (0xff10, 0xff19), (0x104a0, 0x104a9), (0x10d30, 0x10d39), (0x11066, 0x1106f),
   (0x110f0, 0x110f9), (0x11136, 0x1113f), (0x111d0, 0x111d9), (0x112f0, 0x112f9),
   (0x11450, 0x11459), (0x114d0, 0x114d9), (0x11650, 0x11659), (0x116c0, 0x116c9),
   (0x11730, 0x11739), (0x118e0, 0x118e9), (0x11950, 0x11959), (0x11c50, 0x11c59),
   (0x11d50, 0x11d59), (0x11da0, 0x11da9), (0x16a60, 0x16a69), (0x16ac0, 0x16ac9),
   (0x16b50, 0x16b59), (0x1d7ce, 0x1d7ff), (0x1e140, 0x1e149), (0x1e2f0, 0x1e2f9),
   (0x1e950, 0x1e959), (0x1fbf0, 0x1fbf9)]

/-- Inclusive ranges of the code points at least 0x80 that Python `str.isalnum`
accepts (Unicode 14.0): with the ASCII alphanumerics and the underscore these
are exactly the characters Python regex `\w` matches. -/
def wordRanges : List (Nat × Nat) :=
  [(0xaa, 0xaa), (0xb2, 0xb3), (0xb5, 0xb5), (0xb9, 0xba), (0xbc, 0xbe), (0xc0, 0xd6),
   (0xd8, 0xf6), (0xf8, 0x2c1), (0x2c6, 0x2d1), (0x2e0, 0x2e4), (0x2ec, 0x2ec), (0x2ee, 0x2ee),
   (0x370, 0x374), (0x376, 0x377), (0x37a, 0x37d), (0x37f, 0x37f), (0x386, 0x386),
   (0x388, 0x38a), (0x38c, 0x38c), (0x38e, 0x3a1), (0x3a3, 0x3f5), (0x3f7, 0x481),
   (0x48a, 0x52f), (0x531, 0x556), (0x559, 0x559), (0x560, 0x588), (0x5d0, 0x5ea),
   (0x5ef, 0x5f2), (0x620, 0x64a), (0x660, 0x669), (0x66e, 0x66f), (0x671, 0x6d3),
   (0x6d5, 0x6d5), (0x6e5, 0x6e6), (0x6ee, 0x6fc), (0x6ff, 0x6ff), (0x710, 0x710),
   (0x712, 0x72f), (0x74d, 0x7a5), (0x7b1, 0x7b1), (0x7c0, 0x7ea), (0x7f4, 0x7f5),
   (0x7fa, 0x7fa), (0x800, 0x815), (0x81a, 0x81a), (0x824, 0x824), (0x828, 0x828),
   (0x840, 0x858), (0x860, 0x86a), (0x870, 0x887), (0x889, 0x88e), (0x8a0, 0x8c9),
   (0x904, 0x939), (0x93d, 0x93d), (0x950, 0x950), (0x958, 0x961), (0x966, 0x96f),
   (0x971, 0x980), (0x985, 0x98c), (0x98f, 0x990), (0x993, 0x9a8), (0x9aa, 0x9b0),
   (0x9b2, 0x9b2), (0x9b6, 0x9b9), (0x9bd, 0x9bd), (0x9ce, 0x9ce), (0x9dc, 0x9dd),
   (0x9df, 0x9e1), (0x9e6, 0x9f1), (0x9f4, 0x9f9), (0x9fc, 0x9fc), (0xa05, 0xa0a),
   (0xa0f, 0xa10), (0xa13, 0xa28), (0xa2a, 0xa30), (0xa32, 0xa33), (0xa35, 0xa36),
   (0xa38, 0xa39), (0xa59, 0xa5c), (0xa5e, 0xa5e), (0xa66, 0xa6f), (0xa72, 0xa74),
   (0xa85, 0xa8d), (0xa8f, 0xa91), (0xa93, 0xaa8), (0xaaa, 0xab0), (0xab2, 0xab3),
   (0xab5, 0xab9), (0xabd, 0xabd), (0xad0, 0xad0), (0xae0, 0xae1), (0xae6, 0xaef),
   (0xaf9, 0xaf9), (0xb05, 0xb0c), (0xb0f, 0xb10), (0xb13, 0xb28), (0xb2a, 0xb30),
   (0xb32, 0xb33), (0xb35, 0xb39), (0xb3d, 0xb3d), (0xb5c, 0xb5d), (0xb5f, 0xb61),
   (0xb66, 0xb6f), (0xb71, 0xb77), (0xb83, 0xb83), (0xb85, 0xb8a), (0xb8e, 0xb90),
   (0xb92, 0xb95), (0xb99, 0xb9a), (0xb9c, 0xb9c), (0xb9e, 0xb9f), (0xba3, 0xba4),
   (0xba8, 0xbaa), (0xbae, 0xbb9), (0xbd0, 0xbd0), (0xbe6, 0xbf2), (0xc05, 0xc0c),
   (0xc0e, 0xc10), (0xc12, 0xc28), (0xc2a, 0xc39), (0xc3d, 0xc3d), (0xc58, 0xc5a),
   (0xc5d, 0xc5d), (0xc60, 0xc61), (0xc66, 0xc6f), (0xc78, 0xc7e), (0xc80, 0xc80),
   (0xc85, 0xc8c), (0xc8e, 0xc90), (0xc92, 0xca8), (0xcaa, 0xcb3), (0xcb5, 0xcb9),
   (0xcbd, 0xcbd), (0xcdd, 0xcde), (0xce0, 0xce1), (0xce6, 0xcef), (0xcf1, 0xcf2),
   (0xd04, 0xd0c), (0xd0e, 0xd10), (0xd12, 0xd3a), (0xd3d, 0xd3d), (0xd4e, 0xd4e),
   (0xd54, 0xd56), (0xd58, 0xd61), (0xd66, 0xd78), (0xd7a, 0xd7f), (0xd85, 0xd96),
   (0xd9a, 0xdb1), (0xdb3, 0xdbb), (0xdbd, 0xdbd), (0xdc0, 0xdc6), (0xde6, 0xdef),
   (0xe01, 0xe30), (0xe32, 0xe33), (0xe40, 0xe46), (0xe50, 0xe59), (0xe81, 0xe82),
   (0xe84, 0xe84), (0xe86, 0xe8a), (0xe8c, 0xea3), (0xea5, 0xea5), (0xea7, 0xeb0),
   (0xeb2, 0xeb3), (0xebd, 0xebd), (0xec0, 0xec4), (0xec6, 0xec6), (0xed0, 0xed9),
   (0xedc, 0xedf), (0xf00, 0xf00), (0xf20, 0xf33), (0xf40, 0xf47), (0xf49, 0xf6c),
   (0xf88, 0xf8c), (0x1000, 0x102a), (0x103f, 0x1049), (0x1050, 0x1055), (0x105a, 0x105d),
   (0x1061, 0x1061), (0x1065, 0x1066), (0x106e, 0x1070), (0x1075, 0x1081), (0x108e, 0x108e),
   (0x1090, 0x1099), (0x10a0, 0x10c5), (0x10c7, 0x10c7), (0x10cd, 0x10cd), (0x10d0, 0x10fa),
   (0x10fc, 0x1248), (0x124a, 0x124d), (0x1250, 0x1256), (0x1258, 0x1258), (0x125a, 0x125d),
   (0x1260, 0x1288), (0x128a, 0x128d), (0x1290, 0x12b0), (0x12b2, 0x12b5), (0x12b8, 0x12be),
   (0x12c0, 0x12c0), (0x12c2, 0x12c5), (0x12c8, 0x12d6), (0x12d8, 0x1310), (0x1312, 0x1315),
   (0x1318, 0x135a), (0x1369, 0x137c), (0x1380, 0x138f), (0x13a0, 0x13f5), (0x13f8, 0x13fd),
   (0x1401, 0x166c), (0x166f, 0x167f), (0x1681, 0x169a), (0x16a0, 0x16ea), (0x16ee, 0x16f8),
   (0x1700, 0x1711), (0x171f, 0x1731), (0x1740, 0x1751), (0x1760, 0x176c), (0x176e, 0x1770),
   (0x1780, 0x17b3), (0x17d7, 0x17d7), (0x17dc, 0x17dc), (0x17e0, 0x17e9), (0x17f0, 0x17f9),
   (0x1810, 0x1819), (0x1820, 0x1878), (0x1880, 0x1884), (0x1887, 0x18a8), (0x18aa, 0x18aa),
   (0x18b0, 0x18f5), (0x1900, 0x191e), (0x1946, 0x196d), (0x1970, 0x1974), (0x1980, 0x19ab),
   (0x19b0, 0x19c9), (0x19d0, 0x19da), (0x1a00, 0x1a16), (0x1a20, 0x1a54), (0x1a80, 0x1a89),
   (0x1a90, 0x1a99), (0x1aa7, 0x1aa7), (0x1b05, 0x1b33), (0x1b45, 0x1b4c), (0x1b50, 0x1b59),
   (0x1b83, 0x1ba0), (0x1bae, 0x1be5), (0x1c00, 0x1c23), (0x1c40, 0x1c49), (0x1c4d, 0x1c7d),
   (0x1c80, 0x1c88), (0x1c90, 0x1cba), (0x1cbd, 0x1cbf), (0x1ce9, 0x1cec), (0x1cee, 0x1cf3),
   (0x1cf5, 0x1cf6), (0x1cfa, 0x1cfa), (0x1d00, 0x1dbf), (0x1e00, 0x1f15), (0x1f18, 0x1f1d),
   (0x1f20, 0x1f45), (0x1f48, 0x1f4d), (0x1f50, 0x1f57), (0x1f59, 0x1f59), (0x1f5b, 0x1f5b),
   (0x1f5d, 0x1f5d), (0x1f5f, 0x1f7d), (0x1f80, 0x1fb4), (0x1fb6, 0x1fbc), (0x1fbe, 0x1fbe),
   (0x1fc2, 0x1fc4), (0x1fc6, 0x1fcc), (0x1fd0, 0x1fd3), (0x1fd6, 0x1fdb), (0x1fe0, 0x1fec),
   (0x1ff2, 0x1ff4), (0x1ff6, 0x1ffc), (0x2070, 0x2071), (0x2074, 0x2079), (0x207f, 0x2089),
   (0x2090, 0x209c), (0x2102, 0x2102), (0x2107, 0x2107), (0x210a, 0x2113), (0x2115, 0x2115),
   (0x2119, 0x211d), (0x2124, 0x2124), (0x2126, 0x2126), (0x2128, 0x2128), (0x212a, 0x212d),
   (0x212f, 0x2139), (0x213c, 0x213f), (0x2145, 0x2149), (0x214e, 0x214e), (0x2150, 0x2189),
   (0x2460, 0x249b), (0x24ea, 0x24ff), (0x2776, 0x2793), (0x2c00, 0x2ce4), (0x2ceb, 0x2cee),
   (0x2cf2, 0x2cf3), (0x2cfd, 0x2cfd), (0x2d00, 0x2d25), (0x2d27, 0x2d27), (0x2d2d, 0x2d2d),
   (0x2d30, 0x2d67), (0x2d6f, 0x2d6f), (0x2d80, 0x2d96), (0x2da0, 0x2da6), (0x2da8, 0x2dae),
   (0x2db0, 0x2db6), (0x2db8, 0x2dbe), (0x2dc0, 0x2dc6), (0x2dc8, 0x2dce), (0x2dd0, 0x2dd6),
   (0x2dd8, 0x2dde), (0x2e2f, 0x2e2f), (0x3005, 0x3007), (0x3021, 0x3029), (0x3031, 0x3035),
   (0x3038, 0x303c), (0x3041, 0x3096), (0x309d, 0x309f), (0x30a1, 0x30fa), (0x30fc, 0x30ff),
   (0x3105, 0x312f), (0x3131, 0x318e), (0x3192, 0x3195), (0x31a0, 0x31bf), (0x31f0, 0x31ff),
   (0x3220, 0x3229), (0x3248, 0x324f), (0x3251, 0x325f), (0x3280, 0x3289), (0x32b1, 0x32bf),
   (0x3400, 0x4dbf), (0x4e00, 0xa48c), (0xa4d0, 0xa4fd), (0xa500, 0xa60c), (0xa610, 0xa62b),
   (0xa640, 0xa66e), (0xa67f, 0xa69d), (0xa6a0, 0xa6ef), (0xa717, 0xa71f), (0xa722, 0xa788),
   (0xa78b, 0xa7ca), (0xa7d0, 0xa7d1), (0xa7d3, 0xa7d3), (0xa7d5, 0xa7d9), (0xa7f2, 0xa801),
   (0xa803, 0xa805), (0xa807, 0xa80a), (0xa80c, 0xa822), (0xa830, 0xa835), (0xa840, 0xa873),
   (0xa882, 0xa8b3), (0xa8d0, 0xa8d9), (0xa8f2, 0xa8f7), (0xa8fb, 0xa8fb), (0xa8fd, 0xa8fe),
   (0xa900, 0xa925), (0xa930, 0xa946), (0xa960, 0xa97c), (0xa984, 0xa9b2), (0xa9cf, 0xa9d9),
   (0xa9e0, 0xa9e4), (0xa9e6, 0xa9fe), (0xaa00, 0xaa28), (0xaa40, 0xaa42), (0xaa44, 0xaa4b),
   (0xaa50, 0xaa59), (0xaa60, 0xaa76), (0xaa7a, 0xaa7a), (0xaa7e, 0xaaaf), (0xaab1, 0xaab1),
   (0xaab5, 0xaab6), (0xaab9, 0xaabd), (0xaac0, 0xaac0), (0xaac2, 0xaac2), (0xaadb, 0xaadd),
   (0xaae0, 0xaaea), (0xaaf2, 0xaaf4), (0xab01, 0xab06), (0xab09, 0xab0e), (0xab11, 0xab16),
   (0xab20, 0xab26), (0xab28, 0xab2e), (0xab30, 0xab5a), (0xab5c, 0xab69), (0xab70, 0xabe2),
   (0xabf0, 0xabf9), (0xac00, 0xd7a3), (0xd7b0, 0xd7c6), (0xd7cb, 0xd7fb), (0xf900, 0xfa6d),
   (0xfa70, 0xfad9), (0xfb00, 0xfb06), (0xfb13, 0xfb17), (0xfb1d, 0xfb1d), (0xfb1f, 0xfb28),
   (0xfb2a, 0xfb36), (0xfb38, 0xfb3c), (0xfb3e, 0xfb3e), (0xfb40, 0xfb41), (0xfb43, 0xfb44),
   (0xfb46, 0xfbb1), (0xfbd3, 0xfd3d), (0xfd50, 0xfd8f), (0xfd92, 0xfdc7), (0xfdf0, 0xfdfb),
   (0xfe70, 0xfe74), (0xfe76, 0xfefc), (0xff10, 0xff19), (0xff21, 0xff3a), (0xff41, 0xff5a),
   (0xff66, 0xffbe), (0xffc2, 0xffc7), (0xffca, 0xffcf), (0xffd2, 0xffd7), (0xffda, 0xffdc),
   (0x10000, 0x1000b), (0x1000d, 0x10026), (0x10028, 0x1003a), (0x1003c, 0x1003d),
   (0x1003f, 0x1004d), (0x10050, 0x1005d), (0x10080, 0x100fa), (0x10107, 0x10133),
   (0x10140, 0x10178), (0x1018a, 0x1018b), (0x10280, 0x1029c), (0x102a0, 0x102d0),
   (0x102e1, 0x102fb), (0x10300, 0x10323), (0x1032d, 0x1034a), (0x10350, 0x10375),
   (0x10380, 0x1039d), (0x103a0, 0x103c3), (0x103c8, 0x103cf), (0x103d1, 0x103d5),
   (0x10400, 0x1049d), (0x104a0, 0x104a9), (0x104b0, 0x104d3), (0x104d8, 0x104fb),
   (0x10500, 0x10527), (0x10530, 0x10563), (0x10570, 0x1057a), (0x1057c, 0x1058a),
   (0x1058c, 0x10592), (0x10594, 0x10595), (0x10597, 0x105a1), (0x105a3, 0x105b1),
   (0x105b3, 0x105b9), (0x105bb, 0x105bc), (0x10600, 0x10736), (0x10740, 0x10755),
   (0x10760, 0x10767), (0x10780, 0x10785), (0x10787, 0x107b0), (0x107b2, 0x107ba),
   (0x10800, 0x10805), (0x10808, 0x10808), (0x1080a, 0x10835), (0x10837, 0x10838),
   (0x1083c, 0x1083c), (0x1083f, 0x10855), (0x10858, 0x10876), (0x10879, 0x1089e),
   (0x108a7, 0x108af), (0x108e0, 0x108f2), (0x108f4, 0x108f5), (0x108fb, 0x1091b),
   (0x10920, 0x10939), (0x10980, 0x109b7), (0x109bc, 0x109cf), (0x109d2, 0x10a00),
   (0x10a10, 0x10a13), (0x10a15, 0x10a17), (0x10a19, 0x10a35), (0x10a40, 0x10a48),
   (0x10a60, 0x10a7e), (0x10a80, 0x10a9f), (0x10ac0, 0x10ac7), (0x10ac9, 0x10ae4),
   (0x10aeb, 0x10aef), (0x10b00, 0x10b35), (0x10b40, 0x10b55), (0x10b58, 0x10b72),
   (0x10b78, 0x10b91), (0x10ba9, 0x10baf), (0x10c00, 0x10c48), (0x10c80, 0x10cb2),
   (0x10cc0, 0x10cf2), (0x10cfa, 0x10d23), (0x10d30, 0x10d39), (0x10e60, 0x10e7e),
   (0x10e80, 0x10ea9), (0x10eb0, 0x10eb1), (0x10f00, 0x10f27), (0x10f30, 0x10f45),
   (0x10f51, 0x10f54), (0x10f70, 0x10f81), (0x10fb0, 0x10fcb), (0x10fe0, 0x10ff6),
   (0x11003, 0x11037), (0x11052, 0x1106f), (0x11071, 0x11072), (0x11075, 0x11075),
   (0x11083, 0x110af), (0x110d0, 0x110e8), (0x110f0, 0x110f9), (0x11103, 0x11126),
   (0x11136, 0x1113f), (0x11144, 0x11144), (0x11147, 0x11147), (0x11150, 0x11172),
   (0x11176, 0x11176), (0x11183, 0x111b2), (0x111c1, 0x111c4), (0x111d0, 0x111da),
   (0x111dc, 0x111dc), (0x111e1, 0x111f4), (0x11200, 0x11211), (0x11213, 0x1122b),
   (0x11280, 0x11286), (0x11288, 0x11288), (0x1128a, 0x1128d), (0x1128f, 0x1129d),
   (0x1129f, 0x112a8), (0x112b0, 0x112de), (0x112f0, 0x112f9), (0x11305, 0x1130c),
   (0x1130f, 0x11310), (0x11313, 0x11328), (0x1132a, 0x11330), (0x11332, 0x11333),
   (0x11335, 0x11339), (0x1133d, 0x1133d), (0x11350, 0x11350), (0x1135d, 0x11361),
   (0x11400, 0x11434), (0x11447, 0x1144a), (0x11450, 0x11459), (0x1145f, 0x11461),
   (0x11480, 0x114af), (0x114c4, 0x114c5), (0x114c7, 0x114c7), (0x114d0, 0x114d9),
   (0x11580, 0x115ae), (0x115d8, 0x115db), (0x11600, 0x1162f), (0x11644, 0x11644),
   (0x11650, 0x11659), (0x11680, 0x116aa), (0x116b8, 0x116b8), (0x116c0, 0x116c9),
   (0x11700, 0x1171a), (0x11730, 0x1173b), (0x11740, 0x11746), (0x11800, 0x1182b),
   (0x118a0, 0x118f2), (0x118ff, 0x11906), (0x11909, 0x11909), (0x1190c, 0x11913),
   (0x11915, 0x11916), (0x11918, 0x1192f), (0x1193f, 0x1193f), (0x11941, 0x11941),
   (0x11950, 0x11959), (0x119a0, 0x119a7), (0x119aa, 0x119d0), (0x119e1, 0x119e1),
   (0x119e3, 0x119e3), (0x11a00, 0x11a00), (0x11a0b, 0x11a32), (0x11a3a, 0x11a3a),
   (0x11a50, 0x11a50), (0x11a5c, 0x11a89), (0x11a9d, 0x11a9d), (0x11ab0, 0x11af8),
   (0x11c00, 0x11c08), (0x11c0a, 0x11c2e), (0x11c40, 0x11c40), (0x11c50, 0x11c6c),
   (0x11c72, 0x11c8f), (0x11d00, 0x11d06), (0x11d08, 0x11d09), (0x11d0b, 0x11d30),
   (0x11d46, 0x11d46), (0x11d50, 0x11d59), (0x11d60, 0x11d65), (0x11d67, 0x11d68),
   (0x11d6a, 0x11d89), (0x11d98, 0x11d98), (0x11da0, 0x11da9), (0x11ee0, 0x11ef2),
   (0x11fb0, 0x11fb0), (0x11fc0, 0x11fd4), (0x12000, 0x12399), (0x12400, 0x1246e),
   (0x12480, 0x12543), (0x12f90, 0x12ff0), (0x13000, 0x1342e), (0x14400, 0x14646),
   (0x16800, 0x16a38), (0x16a40, 0x16a5e), (0x16a60, 0x16a69), (0x16a70, 0x16abe),
   (0x16ac0, 0x16ac9), (0x16ad0, 0x16aed), (0x16b00, 0x16b2f), (0x16b40, 0x16b43),
   (0x16b50, 0x16b59), (0x16b5b, 0x16b61), (0x16b63, 0x16b77), (0x16b7d, 0x16b8f),
   (0x16e40, 0x16e96), (0x16f00, 0x16f4a), (0x16f50, 0x16f50), (0x16f93, 0x16f9f),
   (0x16fe0, 0x16fe1), (0x16fe3, 0x16fe3), (0x17000, 0x187f7), (0x18800, 0x18cd5),
   (0x18d00, 0x18d08), (0x1aff0, 0x1aff3), (0x1aff5, 0x1affb), (0x1affd, 0x1affe),
   (0x1b000, 0x1b122), (0x1b150, 0x1b152), (0x1b164, 0x1b167), (0x1b170, 0x1b2fb),
   (0x1bc00, 0x1bc6a), (0x1bc70, 0x1bc7c), (0x1bc80, 0x1bc88), (0x1bc90, 0x1bc99),
   (0x1d2e0, 0x1d2f3), (0x1d360, 0x1d378), (0x1d400, 0x1d454), (0x1d456, 0x1d49c),
   (0x1d49e, 0x1d49f), (0x1d4a2, 0x1d4a2), (0x1d4a5, 0x1d4a6), (0x1d4a9, 0x1d4ac),
   (0x1d4ae, 0x1d4b9), (0x1d4bb, 0x1d4bb), (0x1d4bd, 0x1d4c3), (0x1d4c5, 0x1d505),
   (0x1d507, 0x1d50a), (0x1d50d, 0x1d514), (0x1d516, 0x1d51c), (0x1d51e, 0x1d539),
   (0x1d53b, 0x1d53e), (0x1d540, 0x1d544), (0x1d546, 0x1d546), (0x1d54a, 0x1d550),
   (0x1d552, 0x1d6a5), (0x1d6a8, 0x1d6c0), (0x1d6c2, 0x1d6da), (0x1d6dc, 0x1d6fa),
   (0x1d6fc, 0x1d714), (0x1d716, 0x1d734), (0x1d736, 0x1d74e), (0x1d750, 0x1d76e),
   (0x1d770, 0x1d788), (0x1d78a, 0x1d7a8), (0x1d7aa, 0x1d7c2), (0x1d7c4, 0x1d7cb),
   (0x1d7ce, 0x1d7ff), (0x1df00, 0x1df1e), (0x1e100, 0x1e12c), (0x1e137, 0x1e13d),
   (0x1e140, 0x1e149), (0x1e14e, 0x1e14e), (0x1e290, 0x1e2ad), (0x1e2c0, 0x1e2eb),
   (0x1e2f0, 0x1e2f9), (0x1e7e0, 0x1e7e6), (0x1e7e8, 0x1e7eb), (0x1e7ed, 0x1e7ee),
   (0x1e7f0, 0x1e7fe), (0x1e800, 0x1e8c4), (0x1e8c7, 0x1e8cf), (0x1e900, 0x1e943),
   (0x1e94b, 0x1e94b), (0x1e950, 0x1e959), (0x1ec71, 0x1ecab), (0x1ecad, 0x1ecaf),
   (0x1ecb1, 0x1ecb4), (0x1ed01, 0x1ed2d), (0x1ed2f, 0x1ed3d), (0x1ee00, 0x1ee03),
   (0x1ee05, 0x1ee1f), (0x1ee21, 0x1ee22), (0x1ee24, 0x1ee24), (0x1ee27, 0x1ee27),
   (0x1ee29, 0x1ee32), (0x1ee34, 0x1ee37), (0x1ee39, 0x1ee39), (0x1ee3b, 0x1ee3b),
   (0x1ee42, 0x1ee42), (0x1ee47, 0x1ee47), (0x1ee49, 0x1ee49), (0x1ee4b, 0x1ee4b),
   (0x1ee4d, 0x1ee4f), (0x1ee51, 0x1ee52), (0x1ee54, 0x1ee54), (0x1ee57, 0x1ee57),
   (0x1ee59, 0x1ee59), (0x1ee5b, 0x1ee5b), (0x1ee5d, 0x1ee5d), (0x1ee5f, 0x1ee5f),
   (0x1ee61, 0x1ee62), (0x1ee64, 0x1ee64), (0x1ee67, 0x1ee6a), (0x1ee6c, 0x1ee72),
   (0x1ee74, 0x1ee77), (0x1ee79, 0x1ee7c), (0x1ee7e, 0x1ee7e), (0x1ee80, 0x1ee89),
   (0x1ee8b, 0x1ee9b), (0x1eea1, 0x1eea3), (0x1eea5, 0x1eea9), (0x1eeab, 0x1eebb),
   (0x1f100, 0x1f10c), (0x1fbf0, 0x1fbf9), (0x20000, 0x2a6df), (0x2a700, 0x2b738),
   (0x2b740, 0x2b81d), (0x2b820, 0x2cea1), (0x2ceb0, 0x2ebe0), (0x2f800, 0x2fa1d),
   (0x30000, 0x3134a)]

/-- Regex `\d`: a Unicode decimal digit (category Nd). -/
def isNdChar (c : Char) : Bool :=
  if c.toNat < 0x80 then c.isDigit
  else ndRanges.any (fun r => decide (r.1 ≤ c.toNat ∧ c.toNat ≤ r.2))

/-- Regex `\w`: a Unicode word character (`str.isalnum` or `_`), deciding the
`\b` boundaries of `var_re`. -/
def isWordChar (c : Char) : Bool :=
  if c.toNat < 0x80 then c.isAlphanum || c == '_'
  else wordRanges.any (fun r => decide (r.1 ≤ c.toNat ∧ c.toNat ≤ r.2))

/-!
## Label Formatter: `_subscript_label`
-/

/-- The table `subs` of `_subscript_label`, with the `.get(d, d)` default. -/
def subsGet (d : Char) : Char :=
  if d = '0' then '₀' else if d = '1' then '₁' else if d = '2' then '₂'
  else if d = '3' then '₃' else if d = '4' then '₄' else if d = '5' then '₅'
  else if d = '6' then '₆' else if d = '7' then '₇' else if d = '8' then '₈'
  else if d = '9' then '₉' else d

/-- `_subscript_label`: on a full match of `x(\d+)` return `x` followed by the
subscript of each digit, otherwise return the input unchanged. -/
def subscript_label (v : List Char) : List Char :=
  if v.head? = some 'x' ∧ v.tail ≠ [] ∧ v.tail.all isNdChar
  then 'x' :: v.tail.map subsGet
  else v

/-!
## Dependency Extractor: `build_dependency_dot`
-/

/-- `assign_re.match(line)`: `^\s*(x\d+)\s*=` anchored at the start; returns
the captured variable.  (`\d+` is greedy and the character after it must be
non-digit, so the scanner below is exactly the regex.) -/
def matchAssign (l : List Char) : Option (List Char) :=
  match l.dropWhile isPySpace with
  | 'x' :: rest =>
    let ds := rest.takeWhile isNdChar
    if ds = [] then none
    else
      match (rest.dropWhile isNdChar).dropWhile isPySpace with
      | '=' :: _ => some ('x' :: ds)
      | _ => none
  | _ => none

/-- Does a word boundary hold just after a maximal digit run starting `cs`? -/
def afterOk (cs : List Char) : Bool :=
  match cs.dropWhile isNdChar with
  | [] => true
  | d :: _ => !isWordChar d

/-- Worker for `var_re.findall`: scan left to right carrying whether the
previous character is a word character (for `\b`).  A match `x<digits>` is
emitted when the position follows a non-word character (or the start), and
the maximal digit run is non-empty and followed by a non-word character (or
the end); `re` finds no match inside `x<digits>` (every inner position is
preceded by a word character), so stepping one character is `findall`. -/
def findVarsGo : Bool → List Char → List (List Char)
  | _, [] => []
  | prevW, c :: cs =>
    if prevW = false ∧ c = 'x' ∧ cs.takeWhile isNdChar ≠ [] ∧ afterOk cs = true then
      ('x' :: cs.takeWhile isNdChar) :: findVarsGo (isWordChar c) cs
    else
      findVarsGo (isWordChar c) cs

/-- `var_re.findall(rhs)` for `var_re = \b(x\d+)\b`. -/
def findVars (s : List Char) : List (List Char) := findVarsGo false s

/-- `line.split("=", 1)[1]`: everything after the first `=`. -/
def rhsAfterEq (l : List Char) : List Char :=
  (l.dropWhile (fun c => !(c == '='))).tail

/-- One loop iteration of `build_dependency_dot` up to the match: strip the
line, skip it when empty or a `#` comment or not an assignment; otherwise
return the target variable and the right-hand side text. -/
def lineEq (rawLine : List Char) : Option (List Char × List Char) :=
  let line := stripL rawLine
  if line = [] then none
  else if line.head? = some '#' then none
  else
    match matchAssign line with
    | none => none
    | some tg => some (tg, rhsAfterEq line)

/-- The two accumulating sets of `build_dependency_dot`, as duplicate-free
lists in insertion order (iteration order is irrelevant: emission sorts). -/
structure DState where
  edgesL : List (List Char × List Char)
  nodesL : List (List Char)
deriving Repr, DecidableEq

/-- `nodes.add(v)`. -/
def addNode (n : List Char) (st : DState) : DState :=
  if n ∈ st.nodesL then st else { st with nodesL := st.nodesL ++ [n] }

/-- `edges.add(e)`. -/
def addEdge (e : List Char × List Char) (st : DState) : DState :=
  if e ∈ st.edgesL then st else { st with edgesL := st.edgesL ++ [e] }

/-- The body of the `for var in var_re.findall(rhs)` loop. -/
def varStep (tg : List Char) (s : DState) (v : List Char) : DState :=
  let s2 := addNode v s
  if v ≠ tg then addEdge (tg, v) s2 else s2

/-- The body of the `for line in system_text.splitlines()` loop. -/
def depLineStep (st : DState) (rawLine : List Char) : DState :=
  match lineEq rawLine with
  | none => st
  | some (tg, rhs) => (findVars rhs).foldl (varStep tg) (addNode tg st)

/-- The nodes and edges accumulated over the whole input. -/
def depState (t : List Char) : DState :=
  (splitlines t).foldl depLineStep ⟨[], []⟩

/-- Lexicographic `≤` on strings as Python compares them (by code point). -/
def strLeB : List Char → List Char → Bool
  | [], _ => true
  | _ :: _, [] => false
  | a :: as, b :: bs => if a < b then true else if a = b then strLeB as bs else false

def nodeLe (a b : List Char) : Prop := strLeB a b = true

instance (a b : List Char) : Decidable (nodeLe a b) :=
  decidable_of_iff (strLeB a b = true) Iff.rfl

/-- Python tuple `≤` on edges. -/
def edgeLe (a b : List Char × List Char) : Prop :=
  (if a.1 = b.1 then strLeB a.2 b.2 else strLeB a.1 b.1) = true

instance (a b : List Char × List Char) : Decidable (edgeLe a b) :=
  decidable_of_iff ((if a.1 = b.1 then strLeB a.2 b.2 else strLeB a.1 b.1) = true) Iff.rfl

/-- The fixed header lines of the dependency DOT text. -/
def depHeader : List (List Char) :=
  [str "digraph dep \x7b",
   str "  rankdir=LR;",
   str "  node [shape=ellipse, fontname=\"Monaco\", fontsize=11];",
   str "  edge [fontname=\"Monaco\", fontsize=9];"]

/-- `'  "{v}" [label="{label}"];'`. -/
def nodeDecl (v : List Char) : List Char :=
  str "  \"" ++ v ++ str "\" [label=\"" ++ subscript_label v ++ str "\"];"

/-- `'  "{u}" -> "{v}";'`. -/
def edgeDecl (e : List Char × List Char) : List Char :=
  str "  \"" ++ e.1 ++ str "\" -> \"" ++ e.2 ++ str "\";"

/-- `build_dependency_dot`: empty result when no node and no edge was found,
otherwise header, sorted node declarations, sorted edge declarations and the
closing line, joined with newlines. -/
def build_dependency_dot (t : List Char) : List Char :=
  let st := depState t
  if st.edgesL = [] ∧ st.nodesL = [] then []
  else
    joinNL (depHeader
      ++ (List.insertionSort nodeLe st.nodesL).map nodeDecl
      ++ (List.insertionSort edgeLe st.edgesL).map edgeDecl
      ++ [['\x7d']])

/-!
## State-Graph Canonicalizer: `_reorder_statespace_dot`
-/

/-- The class `[01 ]` of `edge_pattern`. -/
def bit01 (c : Char) : Bool := c == '0' || c == '1' || c == ' '

/-- Try `edge_pattern = "([01 ]+)"\s*->\s*"[01 ]+"` at the head of `l`,
returning group 1.  Each quantified class is followed by a character outside
the class, so greedy maximal runs are the only possible matches. -/
def matchEdgeHere (l : List Char) : Option (List Char) :=
  match l with
  | '"' :: rest =>
    let g1 := rest.takeWhile bit01
    if g1 = [] then none
    else
      match rest.dropWhile bit01 with
      | '"' :: r2 =>
        match r2.dropWhile isPySpace with
        | '-' :: '>' :: r4 =>
          match r4.dropWhile isPySpace with
          | '"' :: r6 =>
            if r6.takeWhile bit01 = [] then none
            else
              match r6.dropWhile bit01 with
              | '"' :: _ => some g1
              | _ => none
          | _ => none
        | _ => none
      | _ => none
  | _ => none

/-- `edge_pattern.search(line)`: the leftmost match, returning group 1. -/
def searchEdge : List Char → Option (List Char)
  | [] => none
  | c :: cs =>
    match matchEdgeHere (c :: cs) with
    | some g => some g
    | none => searchEdge cs

/-- `int(bits, 2)` on a string of `0`/`1` digits (0 for the empty string, as
the `if bits else 0` guard in `key_for_line` arranges). -/
def bitsVal (bits : List Char) : Nat :=
  bits.foldl (fun a c => 2 * a + (if c = '1' then 1 else 0)) 0

/-- `key_for_line`: Hamming weight and binary value of the first matched
source label, whitespace discarded; `(0, 0)` when the pattern is absent. -/
def key_for_line (line : List Char) : Nat × Nat :=
  match searchEdge line with
  | none => (0, 0)
  | some raw =>
    let bits := raw.filter (fun c => !(c == ' '))
    (bits.count '1', bitsVal bits)

/-- Python tuple `≤` on the sort keys. -/
def pairLe (p q : Nat × Nat) : Prop :=
  p.1 < q.1 ∨ (p.1 = q.1 ∧ p.2 ≤ q.2)

instance (p q : Nat × Nat) : Decidable (pairLe p q) :=
  decidable_of_iff (p.1 < q.1 ∨ (p.1 = q.1 ∧ p.2 ≤ q.2)) Iff.rfl

/-- The sort order of `sorted(edge_lines, key=key_for_line)`. -/
def lineLe (a b : List Char) : Prop := pairLe (key_for_line a) (key_for_line b)

instance (a b : List Char) : Decidable (lineLe a b) :=
  decidable_of_iff (pairLe (key_for_line a) (key_for_line b)) Iff.rfl

instance : IsTotal (List Char) lineLe :=
  ⟨fun a b => by unfold lineLe pairLe; omega⟩

instance : IsTrans (List Char) lineLe :=
  ⟨fun a b c => by unfold lineLe pairLe; omega⟩

/-- The three accumulators of the classification loop (`edge_lines`,
`prefix_lines`, `closing_line`; the Python empty string standing for "no
closing line seen" is `none`, a found closing line being never empty). -/
structure RState where
  eLines : List (List Char)
  pLines : List (List Char)
  cLine : Option (List Char)
deriving Repr, DecidableEq

/-- One iteration of the classification loop of `_reorder_statespace_dot`. -/
def classifyStep (st : RState) (line : List Char) : RState :=
  if stripL line = ['\x7d'] then { st with cLine := some line }
  else if (searchEdge line).isSome then { st with eLines := st.eLines ++ [line] }
  else { st with pLines := st.pLines ++ [line] }

/-- `_reorder_statespace_dot`: classify the lines, sort the edge lines by
`key_for_line` with Python's stable sort (`List.insertionSort` with a total
preorder is that sort), and recombine. -/
def reorder_statespace_dot (dot : List Char) : List Char :=
  let st := (splitlines dot).foldl classifyStep ⟨[], [], none⟩
  joinNL (st.pLines ++ List.insertionSort lineLe st.eLines ++ st.cLine.toList)

/-- Classification test for a closing line. -/
def isCloseL (l : List Char) : Bool := decide (stripL l = ['\x7d'])

/-- Classification test for an edge line. -/
def isEdgeL (l : List Char) : Bool := !isCloseL l && (searchEdge l).isSome

/-- Classification test for a prefix-block line. -/
def isPrefL (l : List Char) : Bool := !isCloseL l && !(searchEdge l).isSome

/-- The last element of a list, or a default option. -/
def lastOr (L : List (List Char)) (d : Option (List Char)) : Option (List Char) :=
  match L.getLast? with
  | some c => some c
  | none => d

/-- The line sequence recombined by `_reorder_statespace_dot`. -/
def outLines (s : List Char) : List (List Char) :=
  (splitlines s).filter isPrefL
    ++ List.insertionSort lineLe ((splitlines s).filter isEdgeL)
    ++ (((splitlines s).filter isCloseL).getLast?).toList

/-!
## Lemmas about the Canonicalizer
-/

theorem lastOr_nil (d : Option (List Char)) : lastOr [] d = d := rfl

theorem lastOr_cons (x : List Char) (X : List (List Char)) (d : Option (List Char)) :
    lastOr (x :: X) d = lastOr X (some x) := by
  match X with
  | [] => rfl
  | y :: Y =>
    have hc := List.getLast?_eq_getLast_of_ne_nil (l := y :: Y) (by simp)
    simp [lastOr, List.getLast?_cons_cons, hc]

/-- The classification loop, described by filters over the input lines. -/
theorem classify_fold :
    ∀ (L : List (List Char)) (st : RState),
      L.foldl classifyStep st =
        ⟨st.eLines ++ L.filter isEdgeL,
         st.pLines ++ L.filter isPrefL,
         lastOr (L.filter isCloseL) st.cLine⟩ := by
  intro L
  induction L with
  | nil => intro st; simp [lastOr_nil]
  | cons l L ih =>
    intro st
    rw [List.foldl_cons, ih]
    by_cases h1 : stripL l = ['\x7d']
    · have hc : isCloseL l = true := by simp [isCloseL, h1]
      simp [classifyStep, if_pos h1, isEdgeL, isPrefL, hc, lastOr_cons]
    · have hc : isCloseL l = false := by simp [isCloseL, h1]
      by_cases h2 : (searchEdge l).isSome
      · simp [classifyStep, if_neg h1, h2, isEdgeL, isPrefL, hc]
      · simp at h2
        simp [classifyStep, if_neg h1, h2, isEdgeL, isPrefL, hc]

/-- `_reorder_statespace_dot` in terms of the line decomposition. -/
theorem reorder_eq (s : List Char) :
    reorder_statespace_dot s = joinNL (outLines s) := by
  unfold reorder_statespace_dot outLines
  rw [classify_fold]
  have : ∀ X : List (List Char), (lastOr X none).toList = X.getLast?.toList := by
    intro X; unfold lastOr; cases X.getLast? <;> rfl
  simp [this]

/-- A closing line is nonempty. -/
theorem isCloseL_ne_nil {l : List Char} (h : isCloseL l = true) : l ≠ [] := by
  intro he; subst he; simp [isCloseL, stripL] at h

/-- An edge line is nonempty. -/
theorem isEdgeL_ne_nil {l : List Char} (h : isEdgeL l = true) : l ≠ [] := by
  intro he; subst he; simp [isEdgeL, isCloseL, stripL, searchEdge] at h

/-- Members of the sorted edge block are edge lines of the input. -/
theorem mem_sortedEdges {s : List Char} {l : List Char}
    (h : l ∈ List.insertionSort lineLe ((splitlines s).filter isEdgeL)) :
    l ∈ splitlines s ∧ isEdgeL l = true := by
  have := (List.mem_insertionSort lineLe).1 h
  exact ⟨(List.mem_filter.1 this).1, (List.mem_filter.1 this).2⟩

/-- Every recombined line is a line of the input. -/
theorem mem_outLines {s : List Char} {l : List Char} (h : l ∈ outLines s) :
    l ∈ splitlines s := by
  unfold outLines at h
  rcases List.mem_append.1 h with h | h
  · rcases List.mem_append.1 h with h | h
    · exact (List.mem_filter.1 h).1
    · exact (mem_sortedEdges h).1
  · rcases hx : ((splitlines s).filter isCloseL).getLast? with _ | c
    · simp [hx] at h
    · rw [hx] at h
      simp at h
      subst h
      obtain ⟨hne, hcg⟩ := List.mem_getLast?_eq_getLast (Option.mem_def.2 hx)
      have : l ∈ (splitlines s).filter isCloseL := hcg ▸ List.getLast_mem hne
      exact (List.mem_filter.1 this).1

/-- The recombined lines are terminator-free. -/
theorem outLines_noTerm (s : List Char) :
    ∀ l ∈ outLines s, ∀ c ∈ l, isLineTerm c = false :=
  fun l hl => splitlines_noTerm s l (mem_outLines hl)

/-- Splitting the canonicalizer's output recovers the recombined lines,
except that a trailing empty line (necessarily a prefix-block line) is lost. -/
theorem splitlines_reorder (s : List Char) :
    splitlines (reorder_statespace_dot s) =
      if (outLines s).getLast? = some [] then (outLines s).dropLast else outLines s := by
  rw [reorder_eq]
  exact splitlines_joinNL (outLines s) (outLines_noTerm s)

/-- Keys incomparable leftward are distinct. -/
theorem key_ne_of_not_lineLe {x y : List Char} (h : ¬ lineLe x y) :
    key_for_line y ≠ key_for_line x := by
  unfold lineLe pairLe at h
  intro he
  rw [he] at h
  omega

/-- Stability of one insertion: lines of one key keep their relative order. -/
theorem filter_key_orderedInsert (k : Nat × Nat) (x : List Char) :
    ∀ l : List (List Char),
      (List.orderedInsert lineLe x l).filter (fun a => decide (key_for_line a = k)) =
        if key_for_line x = k
        then x :: l.filter (fun a => decide (key_for_line a = k))
        else l.filter (fun a => decide (key_for_line a = k)) := by
  intro l
  induction l with
  | nil =>
    simp only [List.orderedInsert, List.filter]
    by_cases h : key_for_line x = k <;> simp [h]
  | cons y ys ih =>
    rw [List.orderedInsert]
    by_cases hxy : lineLe x y
    · rw [if_pos hxy]
      by_cases hx : key_for_line x = k <;> simp [List.filter_cons, hx]
    · rw [if_neg hxy]
      have hyx : key_for_line y ≠ key_for_line x := key_ne_of_not_lineLe hxy
      by_cases hx : key_for_line x = k
      · have hy : ¬ key_for_line y = k := fun h => hyx (h.trans hx.symm)
        simp [List.filter_cons, hy, ih, hx]
      · by_cases hy : key_for_line y = k <;> simp [List.filter_cons, hy, ih, hx]

/-- Stability of the sort: for every key, the sorted edge block lists the
lines of that key exactly as the input does. -/
theorem filter_key_insertionSort (k : Nat × Nat) :
    ∀ l : List (List Char),
      (List.insertionSort lineLe l).filter (fun a => decide (key_for_line a = k)) =
        l.filter (fun a => decide (key_for_line a = k)) := by
  intro l
  induction l with
  | nil => rfl
  | cons x xs ih =>
    rw [List.insertionSort, filter_key_orderedInsert]
    by_cases hx : key_for_line x = k <;> simp [List.filter_cons, hx, ih]

/-- A trailing empty recombined line forces: no closing line, no edge line,
and the recombination is just the prefix block. -/
theorem outLines_trailing_empty {s : List Char}
    (h : (outLines s).getLast? = some []) :
    (splitlines s).filter isEdgeL = []
      ∧ ((splitlines s).filter isCloseL).getLast? = none
      ∧ outLines s = (splitlines s).filter isPrefL := by
  have hC : ((splitlines s).filter isCloseL).getLast? = none := by
    rcases hx : ((splitlines s).filter isCloseL).getLast? with _ | c
    · rfl
    · exfalso
      unfold outLines at h
      rw [hx] at h
      simp only [Option.toList_some] at h
      rw [show ((splitlines s).filter isPrefL
            ++ List.insertionSort lineLe ((splitlines s).filter isEdgeL) ++ [c])
          = ((splitlines s).filter isPrefL
            ++ List.insertionSort lineLe ((splitlines s).filter isEdgeL)) ++ [c] from by
          simp] at h
      rw [List.getLast?_concat] at h
      obtain ⟨hne, hcg⟩ := List.mem_getLast?_eq_getLast (Option.mem_def.2 hx)
      have hmem : c ∈ (splitlines s).filter isCloseL := hcg ▸ List.getLast_mem hne
      have : isCloseL c = true := (List.mem_filter.1 hmem).2
      exact isCloseL_ne_nil this (Option.some.inj h)
  have hout : outLines s = (splitlines s).filter isPrefL
      ++ List.insertionSort lineLe ((splitlines s).filter isEdgeL) := by
    unfold outLines
    rw [hC]
    simp
  have hSE : List.insertionSort lineLe ((splitlines s).filter isEdgeL) = [] := by
    by_contra hne
    rw [hout, List.getLast?_append,
      List.getLast?_eq_getLast_of_ne_nil hne] at h
    simp only [Option.or] at h
    have hmem := List.getLast_mem hne
    rw [Option.some.inj h] at hmem
    have := (mem_sortedEdges (s := s) hmem).2
    exact isEdgeL_ne_nil this rfl
  have hE : (splitlines s).filter isEdgeL = [] := by
    have := List.perm_insertionSort lineLe ((splitlines s).filter isEdgeL)
    rw [hSE] at this
    exact this.symm.eq_nil
  exact ⟨hE, hC, by rw [hout, hSE, List.append_nil]⟩

/-!
Exclusivity of the three line classes.
-/

theorem not_edge_of_pref {l : List Char} (h : isPrefL l = true) : isEdgeL l = false := by
  unfold isPrefL at h; unfold isEdgeL
  cases hc : isCloseL l <;> cases hs : (searchEdge l).isSome <;> simp_all

theorem not_pref_of_edge {l : List Char} (h : isEdgeL l = true) : isPrefL l = false := by
  unfold isEdgeL at h; unfold isPrefL
  cases hc : isCloseL l <;> cases hs : (searchEdge l).isSome <;> simp_all

theorem not_edge_of_close {l : List Char} (h : isCloseL l = true) : isEdgeL l = false := by
  unfold isEdgeL; simp [h]

theorem not_pref_of_close {l : List Char} (h : isCloseL l = true) : isPrefL l = false := by
  unfold isPrefL; simp [h]

theorem not_close_of_edge {l : List Char} (h : isEdgeL l = true) : isCloseL l = false := by
  unfold isEdgeL at h
  cases hc : isCloseL l <;> simp_all

theorem not_close_of_pref {l : List Char} (h : isPrefL l = true) : isCloseL l = false := by
  unfold isPrefL at h
  cases hc : isCloseL l <;> simp_all

theorem pref_of_not_close_edge {l : List Char} (hc : isCloseL l = false)
    (he : isEdgeL l = false) : isPrefL l = true := by
  unfold isEdgeL at he; unfold isPrefL
  cases hs : (searchEdge l).isSome <;> simp_all

/-- Lines of the output text are recombined lines. -/
theorem mem_splitlines_reorder {s l : List Char}
    (h : l ∈ splitlines (reorder_statespace_dot s)) : l ∈ outLines s := by
  rw [splitlines_reorder] at h
  by_cases hc : (outLines s).getLast? = some ([] : List Char)
  · rw [if_pos hc] at h
    exact (List.dropLast_sublist (outLines s)).subset h
  · rwa [if_neg hc] at h

/-- The filter computations over the recombined line blocks. -/
theorem filter_outLines_parts (s : List Char) :
    (outLines s).filter isPrefL = (splitlines s).filter isPrefL
      ∧ (outLines s).filter isEdgeL
          = List.insertionSort lineLe ((splitlines s).filter isEdgeL)
      ∧ (outLines s).filter isCloseL
          = (((splitlines s).filter isCloseL).getLast?).toList := by
  unfold outLines
  rw [List.filter_append, List.filter_append, List.filter_append, List.filter_append,
    List.filter_append, List.filter_append]
  have hPP : ((splitlines s).filter isPrefL).filter isPrefL
      = (splitlines s).filter isPrefL :=
    List.filter_eq_self.2 (fun a ha => (List.mem_filter.1 ha).2)
  have hSP : (List.insertionSort lineLe ((splitlines s).filter isEdgeL)).filter isPrefL = [] :=
    List.filter_eq_nil_iff.2 (fun a ha => by
      simp [not_pref_of_edge (mem_sortedEdges ha).2])
  have hSS : (List.insertionSort lineLe ((splitlines s).filter isEdgeL)).filter isEdgeL
      = List.insertionSort lineLe ((splitlines s).filter isEdgeL) :=
    List.filter_eq_self.2 (fun a ha => (mem_sortedEdges ha).2)
  have hPS : ((splitlines s).filter isPrefL).filter isEdgeL = [] :=
    List.filter_eq_nil_iff.2 (fun a ha => by
      simp [not_edge_of_pref (List.mem_filter.1 ha).2])
  have hCmem : ∀ a ∈ (((splitlines s).filter isCloseL).getLast?).toList,
      isCloseL a = true := by
    intro a ha
    rcases hx : ((splitlines s).filter isCloseL).getLast? with _ | c
    · simp [hx] at ha
    · rw [hx] at ha; simp at ha; subst ha
      obtain ⟨hne, hcg⟩ := List.mem_getLast?_eq_getLast (Option.mem_def.2 hx)
      have : a ∈ (splitlines s).filter isCloseL := hcg ▸ List.getLast_mem hne
      exact (List.mem_filter.1 this).2
  have hCP : ((((splitlines s).filter isCloseL).getLast?).toList).filter isPrefL = [] :=
    List.filter_eq_nil_iff.2 (fun a ha => by simp [not_pref_of_close (hCmem a ha)])
  have hCS : ((((splitlines s).filter isCloseL).getLast?).toList).filter isEdgeL = [] :=
    List.filter_eq_nil_iff.2 (fun a ha => by simp [not_edge_of_close (hCmem a ha)])
  have hPC : ((splitlines s).filter isPrefL).filter isCloseL = [] :=
    List.filter_eq_nil_iff.2 (fun a ha => by
      simp [not_close_of_pref (List.mem_filter.1 ha).2])
  have hSC : (List.insertionSort lineLe ((splitlines s).filter isEdgeL)).filter isCloseL
      = [] :=
    List.filter_eq_nil_iff.2 (fun a ha => by
      simp [not_close_of_edge (mem_sortedEdges ha).2])
  have hCC : ((((splitlines s).filter isCloseL).getLast?).toList).filter isCloseL
      = (((splitlines s).filter isCloseL).getLast?).toList :=
    List.filter_eq_self.2 hCmem
  rw [hPP, hSP, hSS, hPS, hCP, hCS, hPC, hSC, hCC]
  simp

/-- With at most one closing line, the recombined lines are a permutation of
the input lines. -/
theorem outLines_perm (s : List Char)
    (hcl : ((splitlines s).filter isCloseL).length ≤ 1) :
    (outLines s).Perm (splitlines s) := by
  have hCeq : (((splitlines s).filter isCloseL).getLast?).toList
      = (splitlines s).filter isCloseL := by
    rcases hX : (splitlines s).filter isCloseL with _ | ⟨c, tl⟩
    · simp
    · rw [hX] at hcl
      have htl : tl = [] := by
        cases tl with
        | nil => rfl
        | cons a b => exfalso; simp only [List.length_cons] at hcl; omega
      subst htl
      simp
  have hE : (splitlines s).filter isEdgeL
      = List.filter (fun a => (searchEdge a).isSome)
          (List.filter (fun a => !isCloseL a) (splitlines s)) := by
    rw [List.filter_filter]
    congr 1
    funext a
    unfold isEdgeL
    exact (Bool.and_comm _ _).symm
  have hP : (splitlines s).filter isPrefL
      = List.filter (fun a => !(searchEdge a).isSome)
          (List.filter (fun a => !isCloseL a) (splitlines s)) := by
    rw [List.filter_filter]
    congr 1
    funext a
    unfold isPrefL
    exact (Bool.and_comm _ _).symm
  unfold outLines
  rw [hCeq]
  have h1 : (List.insertionSort lineLe ((splitlines s).filter isEdgeL)).Perm
      ((splitlines s).filter isEdgeL) := List.perm_insertionSort _ _
  have step1 : ((splitlines s).filter isPrefL
        ++ List.insertionSort lineLe ((splitlines s).filter isEdgeL)
        ++ (splitlines s).filter isCloseL).Perm
      (((splitlines s).filter isPrefL ++ (splitlines s).filter isEdgeL)
        ++ (splitlines s).filter isCloseL) :=
    List.Perm.append_right _ (List.Perm.append_left _ h1)
  have step2 : (((splitlines s).filter isPrefL ++ (splitlines s).filter isEdgeL)
        ++ (splitlines s).filter isCloseL).Perm
      ((splitlines s).filter isCloseL
        ++ ((splitlines s).filter isPrefL ++ (splitlines s).filter isEdgeL)) :=
    List.perm_append_comm
  have step3 : ((splitlines s).filter isPrefL ++ (splitlines s).filter isEdgeL).Perm
      (List.filter (fun a => !isCloseL a) (splitlines s)) := by
    rw [hE, hP]
    exact (List.perm_append_comm).trans
      (List.filter_append_perm (fun a => (searchEdge a).isSome) _)
  have step4 : ((splitlines s).filter isCloseL
        ++ List.filter (fun a => !isCloseL a) (splitlines s)).Perm
      (splitlines s) := List.filter_append_perm _ _
  exact ((step1.trans step2).trans (List.Perm.append_left _ step3)).trans step4

/-- When the input's line list does not end in an empty line, neither does the
recombined line list. -/
theorem outLines_getLast_ne {s : List Char}
    (h : ¬ (splitlines s).getLast? = some []) :
    ¬ (outLines s).getLast? = some [] := by
  intro hcontra
  obtain ⟨hE, hC, hP⟩ := outLines_trailing_empty hcontra
  have hCnil : (splitlines s).filter isCloseL = [] := List.getLast?_eq_none_iff.1 hC
  have hall : ∀ l ∈ splitlines s, isPrefL l = true := by
    intro l hl
    exact pref_of_not_close_edge
      (Bool.not_eq_true _ ▸ (List.filter_eq_nil_iff.1 hCnil l hl))
      (Bool.not_eq_true _ ▸ (List.filter_eq_nil_iff.1 hE l hl))
  have : outLines s = splitlines s := by
    rw [hP, List.filter_eq_self.2 hall]
  exact h (this ▸ hcontra)

/-- The Canonicalizer is idempotent on inputs whose line list does not end in
an empty line. -/
theorem reorder_statespace_idem (s : List Char)
    (h : ¬ (splitlines s).getLast? = some []) :
    reorder_statespace_dot (reorder_statespace_dot s) = reorder_statespace_dot s := by
  have hout : ¬ (outLines s).getLast? = some [] := outLines_getLast_ne h
  have hsp : splitlines (reorder_statespace_dot s) = outLines s := by
    rw [splitlines_reorder, if_neg hout]
  obtain ⟨hP, hE, hC⟩ := filter_outLines_parts s
  rw [reorder_eq (reorder_statespace_dot s)]
  unfold outLines
  rw [hsp, hP, hE, hC]
  rw [List.Sorted.insertionSort_eq (List.sorted_insertionSort lineLe _)]
  have hCC : ∀ X : List (List Char),
      (((X.getLast?).toList.getLast?)).toList = (X.getLast?).toList := by
    intro X; cases X.getLast? <;> rfl
  rw [hCC]
  rw [reorder_eq s]
  unfold outLines
  rfl

/-!
## Lemmas about the Dependency Extractor
-/

theorem mem_addNode {n v : List Char} {st : DState} :
    v ∈ (addNode n st).nodesL ↔ v = n ∨ v ∈ st.nodesL := by
  unfold addNode
  by_cases h : n ∈ st.nodesL
  · rw [if_pos h]
    constructor
    · exact Or.inr
    · rintro (rfl | hv) <;> [exact h; exact hv]
  · rw [if_neg h]
    simp only [List.mem_append, List.mem_singleton]
    tauto

theorem edgesL_addNode (n : List Char) (st : DState) :
    (addNode n st).edgesL = st.edgesL := by
  unfold addNode
  by_cases h : n ∈ st.nodesL <;> simp [h]

theorem nodesL_addEdge (e : List Char × List Char) (st : DState) :
    (addEdge e st).nodesL = st.nodesL := by
  unfold addEdge
  by_cases h : e ∈ st.edgesL <;> simp [h]

theorem mem_addEdge {e e' : List Char × List Char} {st : DState} :
    e' ∈ (addEdge e st).edgesL ↔ e' = e ∨ e' ∈ st.edgesL := by
  unfold addEdge
  by_cases h : e ∈ st.edgesL
  · rw [if_pos h]
    constructor
    · exact Or.inr
    · rintro (rfl | hv) <;> [exact h; exact hv]
  · rw [if_neg h]
    simp only [List.mem_append, List.mem_singleton]
    tauto

theorem varStep_nodes {tg v v' : List Char} {s : DState} :
    v' ∈ (varStep tg s v).nodesL ↔ v' = v ∨ v' ∈ s.nodesL := by
  unfold varStep
  by_cases h : v ≠ tg
  · rw [if_pos h, nodesL_addEdge, mem_addNode]
  · rw [if_neg h, mem_addNode]

theorem varStep_edges {tg v : List Char} {e : List Char × List Char} {s : DState} :
    e ∈ (varStep tg s v).edgesL ↔ (v ≠ tg ∧ e = (tg, v)) ∨ e ∈ s.edgesL := by
  unfold varStep
  by_cases h : v ≠ tg
  · rw [if_pos h, mem_addEdge, edgesL_addNode]
    tauto
  · rw [if_neg h, edgesL_addNode]
    tauto

theorem varsFold_nodes {tg v : List Char} :
    ∀ (vs : List (List Char)) (s : DState),
      v ∈ ((vs.foldl (varStep tg) s).nodesL) ↔ v ∈ vs ∨ v ∈ s.nodesL := by
  intro vs
  induction vs with
  | nil => intro s; simp
  | cons w ws ih =>
    intro s
    rw [List.foldl_cons, ih, varStep_nodes]
    simp only [List.mem_cons]
    tauto

theorem varsFold_edges {tg : List Char} {e : List Char × List Char} :
    ∀ (vs : List (List Char)) (s : DState),
      e ∈ ((vs.foldl (varStep tg) s).edgesL) ↔
        (∃ v ∈ vs, v ≠ tg ∧ e = (tg, v)) ∨ e ∈ s.edgesL := by
  intro vs
  induction vs with
  | nil => intro s; simp
  | cons w ws ih =>
    intro s
    rw [List.foldl_cons, ih, varStep_edges]
    simp only [List.mem_cons]
    constructor
    · rintro (⟨v, hv, hne, he⟩ | (⟨hne, he⟩ | hs))
      · exact Or.inl ⟨v, Or.inr hv, hne, he⟩
      · exact Or.inl ⟨w, Or.inl rfl, hne, he⟩
      · exact Or.inr hs
    · rintro (⟨v, (rfl | hv), hne, he⟩ | hs)
      · exact Or.inr (Or.inl ⟨hne, he⟩)
      · exact Or.inl ⟨v, hv, hne, he⟩
      · exact Or.inr (Or.inr hs)

theorem depLineStep_nodes {v : List Char} {st : DState} {raw : List Char} :
    v ∈ (depLineStep st raw).nodesL ↔
      (∃ tg rhs, lineEq raw = some (tg, rhs) ∧ (v = tg ∨ v ∈ findVars rhs))
        ∨ v ∈ st.nodesL := by
  unfold depLineStep
  rcases h : lineEq raw with _ | ⟨tg, rhs⟩
  · simp [h]
  · rw [varsFold_nodes, mem_addNode]
    constructor
    · rintro (hv | (rfl | hv))
      · exact Or.inl ⟨tg, rhs, rfl, Or.inr hv⟩
      · exact Or.inl ⟨v, rhs, rfl, Or.inl rfl⟩
      · exact Or.inr hv
    · rintro (⟨tg2, rhs2, he, (rfl | hv)⟩ | hv)
      · injection he with he2
        injection he2 with h1 h2
        subst h1
        exact Or.inr (Or.inl rfl)
      · injection he with he2
        injection he2 with h1 h2
        subst h1; subst h2
        exact Or.inl hv
      · exact Or.inr (Or.inr hv)

theorem depLineStep_edges {e : List Char × List Char} {st : DState} {raw : List Char} :
    e ∈ (depLineStep st raw).edgesL ↔
      (∃ tg rhs, lineEq raw = some (tg, rhs) ∧ ∃ v ∈ findVars rhs, v ≠ tg ∧ e = (tg, v))
        ∨ e ∈ st.edgesL := by
  unfold depLineStep
  rcases h : lineEq raw with _ | ⟨tg, rhs⟩
  · simp [h]
  · rw [varsFold_edges, edgesL_addNode]
    constructor
    · rintro (⟨v, hv, hne, he⟩ | hs)
      · exact Or.inl ⟨tg, rhs, rfl, v, hv, hne, he⟩
      · exact Or.inr hs
    · rintro (⟨tg2, rhs2, heq, v, hv, hne, he⟩ | hs)
      · injection heq with he2
        injection he2 with h1 h2
        subst h1; subst h2
        exact Or.inl ⟨v, hv, hne, he⟩
      · exact Or.inr hs

theorem depFold_nodes {v : List Char} :
    ∀ (L : List (List Char)) (st : DState),
      v ∈ ((L.foldl depLineStep st).nodesL) ↔
        (∃ raw ∈ L, ∃ tg rhs, lineEq raw = some (tg, rhs) ∧ (v = tg ∨ v ∈ findVars rhs))
          ∨ v ∈ st.nodesL := by
  intro L
  induction L with
  | nil => intro st; simp
  | cons raw L ih =>
    intro st
    rw [List.foldl_cons, ih, depLineStep_nodes]
    simp only [List.mem_cons]
    constructor
    · rintro (⟨r, hr, rest⟩ | (h | hs))
      · exact Or.inl ⟨r, Or.inr hr, rest⟩
      · exact Or.inl ⟨raw, Or.inl rfl, h⟩
      · exact Or.inr hs
    · rintro (⟨r, (rfl | hr), rest⟩ | hs)
      · exact Or.inr (Or.inl rest)
      · exact Or.inl ⟨r, hr, rest⟩
      · exact Or.inr (Or.inr hs)

theorem depFold_edges {e : List Char × List Char} :
    ∀ (L : List (List Char)) (st : DState),
      e ∈ ((L.foldl depLineStep st).edgesL) ↔
        (∃ raw ∈ L, ∃ tg rhs, lineEq raw = some (tg, rhs)
            ∧ ∃ v ∈ findVars rhs, v ≠ tg ∧ e = (tg, v))
          ∨ e ∈ st.edgesL := by
  intro L
  induction L with
  | nil => intro st; simp
  | cons raw L ih =>
    intro st
    rw [List.foldl_cons, ih, depLineStep_edges]
    simp only [List.mem_cons]
    constructor
    · rintro (⟨r, hr, rest⟩ | (h | hs))
      · exact Or.inl ⟨r, Or.inr hr, rest⟩
      · exact Or.inl ⟨raw, Or.inl rfl, h⟩
      · exact Or.inr hs
    · rintro (⟨r, (rfl | hr), rest⟩ | hs)
      · exact Or.inr (Or.inl rest)
      · exact Or.inl ⟨r, hr, rest⟩
      · exact Or.inr (Or.inr hs)

/-- Membership in the accumulated node set. -/
theorem depState_nodes (t : List Char) (v : List Char) :
    v ∈ (depState t).nodesL ↔
      ∃ raw ∈ splitlines t, ∃ tg rhs,
        lineEq raw = some (tg, rhs) ∧ (v = tg ∨ v ∈ findVars rhs) := by
  unfold depState
  rw [depFold_nodes]
  simp

/-- Membership in the accumulated edge set. -/
theorem depState_edges (t : List Char) (e : List Char × List Char) :
    e ∈ (depState t).edgesL ↔
      ∃ raw ∈ splitlines t, ∃ tg rhs,
        lineEq raw = some (tg, rhs) ∧ ∃ v ∈ findVars rhs, v ≠ tg ∧ e = (tg, v) := by
  unfold depState
  rw [depFold_edges]
  simp

/-- A fold over lines none of which is an equation changes nothing. -/
theorem depFold_none :
    ∀ (L : List (List Char)) (st : DState),
      (∀ raw ∈ L, lineEq raw = none) → L.foldl depLineStep st = st := by
  intro L
  induction L with
  | nil => intro st _; rfl
  | cons raw L ih =>
    intro st h
    rw [List.foldl_cons]
    have : depLineStep st raw = st := by
      unfold depLineStep
      rw [h raw (by simp)]
    rw [this]
    exact ih st (fun r hr => h r (by simp [hr]))

/-!
## The claims
-/

/-- The worked example of the spec (the default system text's equations). -/
def exDefault : List Char := str "x1 = x2\nx2 = x1 + x3\nx3 = x2 + x1"

/-- C3: for every input, the Dependency Extractor's node set is the union,
over the lines matching the equation shape, of the left-hand variable and the
word-boundary variable occurrences of the right-hand side; on the example
text the nodes are x1, x2, x3 and the edges (x1,x2), (x2,x1), (x2,x3),
(x3,x2), (x3,x1). -/
theorem C3_node_set :
    (∀ (t v : List Char),
      v ∈ (depState t).nodesL ↔
        ∃ raw ∈ splitlines t, ∃ tg rhs,
          lineEq raw = some (tg, rhs) ∧ (v = tg ∨ v ∈ findVars rhs))
    ∧ (depState exDefault).nodesL = [str "x1", str "x2", str "x3"]
    ∧ (depState exDefault).edgesL =
        [(str "x1", str "x2"), (str "x2", str "x1"), (str "x2", str "x3"),
         (str "x3", str "x2"), (str "x3", str "x1")] :=
  ⟨depState_nodes, by decide, by decide⟩

/-- C4: the Dependency Extractor never produces a self-loop edge `(v, v)`,
whatever the input text. -/
theorem C4_no_self_loop (t v : List Char) : (v, v) ∉ (depState t).edgesL := by
  intro hmem
  rw [depState_edges] at hmem
  obtain ⟨raw, -, tg, rhs, -, w, -, hne, he⟩ := hmem
  rw [Prod.mk.injEq] at he
  exact hne (he.2.symm.trans he.1)

/-- C5 counterexample: `x1٢` (with U+0662, an Arabic-Indic decimal digit) is
not `x` followed by decimal digits `0`-`9`, yet the Label Formatter does not
return it unchanged: `re.fullmatch` accepts the Unicode digit and the glyph
table's `.get` default keeps `٢`, giving `x₁٢`. -/
theorem C5_counterexample :
    ¬ ((str "x1\u0662").head? = some 'x' ∧ (str "x1\u0662").tail ≠ []
        ∧ (str "x1\u0662").tail.all Char.isDigit = true)
    ∧ subscript_label (str "x1\u0662") = str "x\u2081\u0662"
    ∧ ¬ str "x\u2081\u0662" = str "x1\u0662" := by
  decide

/-- C5 (amended): on a full match of `x` followed by one or more Unicode
decimal digits the Label Formatter returns `x` followed by each digit's image
under the glyph table (the subscript glyph for `0`-`9`, the digit itself
otherwise); every other string is returned unchanged. -/
theorem C5_label_fmt (s : List Char) :
    (∀ ds : List Char, s = 'x' :: ds → ds ≠ [] → (∀ c ∈ ds, isNdChar c = true) →
        subscript_label s = 'x' :: ds.map subsGet)
    ∧ (¬(∃ ds : List Char, s = 'x' :: ds ∧ ds ≠ [] ∧ ∀ c ∈ ds, isNdChar c = true) →
        subscript_label s = s) := by
  constructor
  · rintro ds rfl hne hdig
    have hcond : ('x' :: ds).head? = some 'x' ∧ ('x' :: ds).tail ≠ []
        ∧ ('x' :: ds).tail.all isNdChar = true :=
      ⟨rfl, by simpa using hne, by simpa [List.all_eq_true] using hdig⟩
    unfold subscript_label
    rw [if_pos hcond]
    rfl
  · intro hnomatch
    unfold subscript_label
    rw [if_neg]
    rintro ⟨h1, h2, h3⟩
    apply hnomatch
    cases s with
    | nil => simp at h1
    | cons c cs =>
      simp only [List.head?_cons, Option.some.injEq] at h1
      subst h1
      exact ⟨cs, rfl, by simpa using h2,
        fun d hd => List.all_eq_true.1 (by simpa using h3) d hd⟩

/-- Witness for C5 at the spec's own examples `x12` and `state`. -/
theorem C5_label_fmt_witness :
    subscript_label (str "x12") = 'x' :: (['1', '2'].map subsGet)
      ∧ subscript_label (str "state") = str "state" :=
  ⟨(C5_label_fmt (str "x12")).1 ['1', '2'] (by decide) (by decide) (by decide),
   (C5_label_fmt (str "state")).2 (by
      rintro ⟨ds, hds, -, -⟩
      have hh : (str "state").head? = some 'x' := by rw [hds]; rfl
      exact absurd hh (by decide))⟩

/-- C8: an input with no valid equation line yields the empty string. -/
theorem C8_empty_result (t : List Char)
    (h : ∀ raw ∈ splitlines t, lineEq raw = none) :
    build_dependency_dot t = [] := by
  have hst : depState t = ⟨[], []⟩ := depFold_none (splitlines t) ⟨[], []⟩ h
  unfold build_dependency_dot
  rw [hst]
  simp

/-- Witness for C8: a comment line and a non-equation line produce nothing. -/
theorem C8_empty_result_witness :
    build_dependency_dot (str "# only\nhello\n") = [] :=
  C8_empty_result (str "# only\nhello\n") (by decide)

/-- The edge lines of the output text are exactly the sorted edge lines. -/
theorem filter_edge_reorder (s : List Char) :
    (splitlines (reorder_statespace_dot s)).filter isEdgeL
      = List.insertionSort lineLe ((splitlines s).filter isEdgeL) := by
  rw [splitlines_reorder]
  by_cases h : (outLines s).getLast? = some ([] : List Char)
  · rw [if_pos h]
    obtain ⟨hE, hC, hP⟩ := outLines_trailing_empty h
    rw [hP, hE]
    rw [show List.insertionSort lineLe ([] : List (List Char)) = [] from rfl]
    refine List.filter_eq_nil_iff.2 ?_
    intro a ha
    have hmem : a ∈ (splitlines s).filter isPrefL := (List.dropLast_sublist _).subset ha
    simp [not_edge_of_pref (List.mem_filter.1 hmem).2]
  · rw [if_neg h]
    exact (filter_outLines_parts s).2.1

/-- Each line counts in exactly one of the three classes. -/
theorem length_three_filters :
    ∀ (L : List (List Char)),
      (L.filter isPrefL).length + (L.filter isEdgeL).length
        + (L.filter isCloseL).length = L.length := by
  intro L
  induction L with
  | nil => rfl
  | cons l L ih =>
    by_cases hc : isCloseL l = true
    · simp only [List.filter_cons, hc, not_edge_of_close hc, not_pref_of_close hc,
        Bool.false_eq_true, reduceIte, List.length_cons]
      omega
    · have hc2 : isCloseL l = false := by simpa using hc
      by_cases he : (searchEdge l).isSome
      · have hE : isEdgeL l = true := by simp [isEdgeL, hc2, he]
        have hP : isPrefL l = false := not_pref_of_edge hE
        simp only [List.filter_cons, hc2, hE, hP, Bool.false_eq_true, reduceIte,
          List.length_cons]
        omega
      · have hs : (searchEdge l).isSome = false := by simpa using he
        have hE : isEdgeL l = false := by simp [isEdgeL, hs]
        have hP : isPrefL l = true := pref_of_not_close_edge hc2 hE
        simp only [List.filter_cons, hc2, hE, hP, Bool.false_eq_true, reduceIte,
          List.length_cons]
        omega

/-- C2: in the Canonicalizer's output the edge lines are sorted ascending by
the pair (Hamming weight, binary value) of the source label, and lines of
equal key keep their relative input order (the sort is stable). -/
theorem C2_edge_order (s : List Char) :
    List.Pairwise lineLe ((splitlines (reorder_statespace_dot s)).filter isEdgeL)
    ∧ ∀ k : Nat × Nat,
        ((splitlines (reorder_statespace_dot s)).filter isEdgeL).filter
            (fun l => decide (key_for_line l = k))
          = ((splitlines s).filter isEdgeL).filter
            (fun l => decide (key_for_line l = k)) := by
  rw [filter_edge_reorder]
  exact ⟨List.sorted_insertionSort lineLe _,
    fun k => filter_key_insertionSort k ((splitlines s).filter isEdgeL)⟩

/-- C7: when the input has a closing line, the output's last line is the
input's last closing line; when it has none, the output has none. -/
theorem C7_closing_last (s : List Char) :
    ((∃ l ∈ splitlines s, isCloseL l = true) →
      ∃ c, ((splitlines s).filter isCloseL).getLast? = some c
        ∧ (splitlines (reorder_statespace_dot s)).getLast? = some c
        ∧ isCloseL c = true)
    ∧ ((∀ l ∈ splitlines s, isCloseL l = false) →
        ∀ l ∈ splitlines (reorder_statespace_dot s), isCloseL l = false) := by
  constructor
  · rintro ⟨l0, hl0, hcl0⟩
    have hne : (splitlines s).filter isCloseL ≠ [] :=
      List.ne_nil_of_mem (List.mem_filter.2 ⟨hl0, hcl0⟩)
    set c := ((splitlines s).filter isCloseL).getLast hne with hcdef
    have hcsome : ((splitlines s).filter isCloseL).getLast? = some c :=
      List.getLast?_eq_getLast_of_ne_nil hne
    have hcmem : c ∈ (splitlines s).filter isCloseL := List.getLast_mem hne
    have hcclose : isCloseL c = true := (List.mem_filter.1 hcmem).2
    have hout : (outLines s).getLast? = some c := by
      unfold outLines
      rw [hcsome]
      rw [show (splitlines s).filter isPrefL
            ++ List.insertionSort lineLe ((splitlines s).filter isEdgeL)
            ++ (some c).toList
          = ((splitlines s).filter isPrefL
            ++ List.insertionSort lineLe ((splitlines s).filter isEdgeL)) ++ [c] from by
        simp]
      exact List.getLast?_concat _
    refine ⟨c, hcsome, ?_, hcclose⟩
    rw [splitlines_reorder, if_neg ?_]
    · exact hout
    · rw [hout]
      intro hcontra
      exact isCloseL_ne_nil hcclose (Option.some.inj hcontra)
  · intro hnone l hl
    have hmem := mem_splitlines_reorder hl
    unfold outLines at hmem
    have hCnil : (splitlines s).filter isCloseL = [] :=
      List.filter_eq_nil_iff.2 (fun a ha => by simp [hnone a ha])
    rw [hCnil] at hmem
    simp only [List.getLast?_nil, Option.toList_none, List.append_nil] at hmem
    rcases List.mem_append.1 hmem with h | h
    · exact not_close_of_pref (List.mem_filter.1 h).2
    · exact not_close_of_edge (mem_sortedEdges h).2

/-- C9: with two or more closing lines in the input, the output keeps exactly
one closing line, namely the input's last one, and drops the earlier ones
(the output is one line longer than the non-closing lines). -/
theorem C9_last_closing_kept (s : List Char)
    (h2 : 2 ≤ ((splitlines s).filter isCloseL).length) :
    ∃ c, ((splitlines s).filter isCloseL).getLast? = some c
      ∧ splitlines (reorder_statespace_dot s)
          = (splitlines s).filter isPrefL
            ++ List.insertionSort lineLe ((splitlines s).filter isEdgeL)
            ++ [c]
      ∧ ((splitlines (reorder_statespace_dot s)).filter isCloseL).length = 1
      ∧ (splitlines (reorder_statespace_dot s)).length
          = (splitlines s).length - ((splitlines s).filter isCloseL).length + 1 := by
  have hne : (splitlines s).filter isCloseL ≠ [] := by
    intro hnil; rw [hnil] at h2; simp at h2
  set c := ((splitlines s).filter isCloseL).getLast hne with hcdef
  have hcsome : ((splitlines s).filter isCloseL).getLast? = some c :=
    List.getLast?_eq_getLast_of_ne_nil hne
  have hcclose : isCloseL c = true :=
    (List.mem_filter.1 (List.getLast_mem hne)).2
  have houtform : outLines s
      = (splitlines s).filter isPrefL
        ++ List.insertionSort lineLe ((splitlines s).filter isEdgeL) ++ [c] := by
    unfold outLines
    rw [hcsome]
    simp
  have hout : (outLines s).getLast? = some c := by
    rw [houtform,
      show (splitlines s).filter isPrefL
          ++ List.insertionSort lineLe ((splitlines s).filter isEdgeL) ++ [c]
        = ((splitlines s).filter isPrefL
          ++ List.insertionSort lineLe ((splitlines s).filter isEdgeL)) ++ [c] from by
        simp]
    exact List.getLast?_concat _
  have hsp : splitlines (reorder_statespace_dot s) = outLines s := by
    rw [splitlines_reorder, if_neg ?_]
    rw [hout]
    intro hcontra
    exact isCloseL_ne_nil hcclose (Option.some.inj hcontra)
  refine ⟨c, hcsome, by rw [hsp, houtform], ?_, ?_⟩
  · rw [hsp, (filter_outLines_parts s).2.2, hcsome]
    rfl
  · rw [hsp, houtform]
    have hlen := length_three_filters (splitlines s)
    have hsort : (List.insertionSort lineLe ((splitlines s).filter isEdgeL)).length
        = ((splitlines s).filter isEdgeL).length := List.length_insertionSort _ _
    simp only [List.length_append, hsort, List.length_singleton]
    omega

/-- C10: a non-closing line is put in the sorted edge block whenever the edge
pattern occurs anywhere inside it (substring search, not a whole-line match),
and its sort key is the weight and value of the line's first quoted label. -/
theorem C10_substring_edge (s line g : List Char)
    (hmem : line ∈ splitlines s) (hnc : ¬ stripL line = ['\x7d'])
    (hse : searchEdge line = some g) :
    line ∈ (splitlines (reorder_statespace_dot s)).filter isEdgeL
    ∧ key_for_line line
        = ((g.filter (fun c => !(c == ' '))).count '1',
           bitsVal (g.filter (fun c => !(c == ' ')))) := by
  have hedge : isEdgeL line = true := by
    simp [isEdgeL, isCloseL, hnc, hse]
  constructor
  · rw [filter_edge_reorder]
    exact (List.mem_insertionSort lineLe).2 (List.mem_filter.2 ⟨hmem, hedge⟩)
  · unfold key_for_line
    rw [hse]

/-- A canonicalizer input whose closing line appears twice. -/
def exC1 : List Char := str "\x7d\n\x7d"

/-- A well-formed state-graph text: header, one edge line, one closing line. -/
def exDot : List Char := str "digraph \x7b\n  \"1\" -> \"0\";\n\x7d"

/-- C1 counterexample: on the two-closing-line input the output's lines are
not a permutation of the input's lines (the first closing line is dropped). -/
theorem C1_counterexample :
    ¬ (splitlines (reorder_statespace_dot exC1)).Perm (splitlines exC1) := by
  decide

/-- C1 (amended): for inputs with at most one closing line and whose line
sequence does not end in an empty line, the output holds exactly the input's
multiset of lines. -/
theorem C1_line_multiset (s : List Char)
    (hcl : ((splitlines s).filter isCloseL).length ≤ 1)
    (hlast : ¬ (splitlines s).getLast? = some []) :
    (splitlines (reorder_statespace_dot s)).Perm (splitlines s) := by
  have hout : ¬ (outLines s).getLast? = some [] := outLines_getLast_ne hlast
  rw [splitlines_reorder, if_neg hout]
  exact outLines_perm s hcl

/-- Witness for C1 on a well-formed state-graph text. -/
theorem C1_line_multiset_witness :
    (splitlines (reorder_statespace_dot exDot)).Perm (splitlines exDot) :=
  C1_line_multiset exDot (by decide) (by decide)

/-- C6 counterexample: on the input of two empty lines the Canonicalizer is
not idempotent (the `join`/`splitlines` round trip loses the trailing empty
line, so a second application shortens the text again). -/
theorem C6_counterexample :
    ¬ reorder_statespace_dot (reorder_statespace_dot (str "\n\n"))
        = reorder_statespace_dot (str "\n\n") := by
  decide

/-- C6 (amended): the Canonicalizer is idempotent on every input whose line
sequence does not end in an empty line. -/
theorem C6_idempotent (s : List Char)
    (h : ¬ (splitlines s).getLast? = some []) :
    reorder_statespace_dot (reorder_statespace_dot s) = reorder_statespace_dot s :=
  reorder_statespace_idem s h

/-- Witness for C6 on a well-formed state-graph text. -/
theorem C6_idempotent_witness :
    reorder_statespace_dot (reorder_statespace_dot exDot) = reorder_statespace_dot exDot :=
  C6_idempotent exDot (by decide)

/-- An input with two closing lines, one edge line and a header line. -/
def exC9 : List Char := str "digraph \x7b\n\x7d\n  \"1\" -> \"0\";\n\x7d"

/-- Witness for C9 on an input with two closing lines. -/
theorem C9_last_closing_kept_witness :
    ∃ c, ((splitlines exC9).filter isCloseL).getLast? = some c
      ∧ splitlines (reorder_statespace_dot exC9)
          = (splitlines exC9).filter isPrefL
            ++ List.insertionSort lineLe ((splitlines exC9).filter isEdgeL)
            ++ [c]
      ∧ ((splitlines (reorder_statespace_dot exC9)).filter isCloseL).length = 1
      ∧ (splitlines (reorder_statespace_dot exC9)).length
          = (splitlines exC9).length - ((splitlines exC9).filter isCloseL).length + 1 :=
  C9_last_closing_kept exC9 (by decide)

/-- An input whose second line is an attribute-style line that merely contains
the edge pattern as a fragment. -/
def exC10 : List Char :=
  str "digraph \x7b\n  x [c=\"1 1\" -> \"0 0\"];\n  \"0 0\" -> \"1 1\";\n\x7d"

/-- Witness for C10: the attribute-style fragment line lands in the edge
block, keyed by its first quoted label `1 1`. -/
theorem C10_substring_edge_witness :
    (str "  x [c=\"1 1\" -> \"0 0\"];") ∈
        (splitlines (reorder_statespace_dot exC10)).filter isEdgeL
      ∧ key_for_line (str "  x [c=\"1 1\" -> \"0 0\"];")
          = (((str "1 1").filter (fun c => !(c == ' '))).count '1',
             bitsVal ((str "1 1").filter (fun c => !(c == ' ')))) :=
  C10_substring_edge exC10 (str "  x [c=\"1 1\" -> \"0 0\"];") (str "1 1")
    (by decide) (by decide) (by decide)
